import Mathlib

/-!
Verification development for the `priority_living` bridge worker
(`src/priority_living/bridge.py`).

The bridge worker polls a backend for shell commands, gates them through a
deny-list safety filter, executes them with output streaming and caps, and
reports results.  This file gives a shallow embedding of that code:

* Python string operations (`lower`, `strip`, substring `in`) are embedded
  over `String.data` lists of characters.
* The subprocess interaction of `execute_command` is embedded by making the
  environment explicit: a `LaunchOutcome` describes what `subprocess.Popen`
  and the child process do (the lines readable from its stdout until EOF,
  what `process.wait(timeout=300)` yields afterwards, and the return code
  observed after a `process.kill()`).  `execute_command` is then a total
  function of the command and that outcome, returning the result dict
  together with the externally visible effects (whether `Popen` was called,
  whether the process was killed, which chunks the stream callback saw).
* The poll loop is embedded as a transition function `iterStep` on the
  loop's mutable state (`backoff`, `consecutive_errors`, the global
  `session_id`, `last_heartbeat`), driven by a list of per-iteration
  environment inputs (the current clock value and the poll outcome), and
  producing the observable actions of the iteration (heartbeat emission,
  poll request with the session id it carries, sleeps, stream chunks,
  execution completion and the result report).  The `running` flag, cleared
  by the signal handler and read at the top of every iteration, is embedded
  as the iteration budget of `poll_loop_iters`: the loop runs that many full
  iterations and then observes the flag false.
-/

namespace PriorityLiving

/-! ### Python string primitives -/

/-- ASCII whitespace, as recognised by Python's `str.strip()` (restricted to
the ASCII range; none of the deny-list patterns involve non-ASCII). -/
def isPyWs (c : Char) : Bool :=
  c == ' ' || c == '\t' || c == '\n' || c == '\r' || c == '\x0b' || c == '\x0c'

/-- Python `str.lower()` (character-wise). -/
def pyLower (s : String) : String := ⟨s.data.map Char.toLower⟩

/-- Python `str.strip()`: drop leading and trailing whitespace. -/
def pyStrip (s : String) : String :=
  ⟨((s.data.dropWhile isPyWs).reverse.dropWhile isPyWs).reverse⟩

/-- Substring scan: does `needle` occur contiguously inside the list? -/
def isInfixList (needle : List Char) : List Char → Bool
  | [] => needle.isEmpty
  | a :: as => needle.isPrefixOf (a :: as) || isInfixList needle as

/-- Python `needle in hay` on strings: substring containment. -/
def strContains (hay needle : String) : Bool := isInfixList needle.data hay.data

/-! ### Safety filter (`bridge.py` lines 26-30, 70-72) -/

def MAX_OUTPUT_CHARS : Nat := 50000

def DANGEROUS_COMMANDS : List String :=
  ["rm -rf /", "mkfs", "dd if=", ":(){:|:&};:", "fork bomb",
   "format c:", "del /f /s /q", "shutdown", "reboot"]

/-- `is_dangerous(cmd)`: `lower = cmd.lower().strip()`;
`any(d in lower for d in DANGEROUS_COMMANDS)`. -/
def is_dangerous (cmd : String) : Bool :=
  DANGEROUS_COMMANDS.any (fun d => strContains (pyStrip (pyLower cmd)) d)

/-! ### Command executor (`bridge.py` lines 75-101) -/

structure ExecResult where
  exit_code : Int
  output : String
deriving DecidableEq

/-- The string appended to `output_lines` when the output cap is exceeded. -/
def truncationMarker : String := "\n... [output truncated] ..."

def blockedMessage : String := "🚫 Command blocked: potentially dangerous operation."

def timeoutMessage : String := "⏱ Command timed out (5 min limit)."

/-- What `process.wait(timeout=300)` does once the stdout read loop has seen
EOF: the process has exited with a return code, or the 300-second ceiling is
exceeded (`subprocess.TimeoutExpired`), or some other exception is raised. -/
inductive ProcEnd where
  | exited (returncode : Int)
  | waitTimeout
  | raised (err : String)
deriving DecidableEq

/-- Behaviour of a successfully launched child process: the lines the read
loop can obtain from its stdout before EOF, what the post-EOF wait yields,
and the return code observed by `process.wait` after a mid-read
`process.kill()` (a killed process terminates promptly with its kill
status). -/
structure ProcBehavior where
  lines : List String
  ending : ProcEnd
  killedCode : Int
deriving DecidableEq

/-- Outcome of the `subprocess.Popen` call itself. -/
inductive LaunchOutcome where
  | launched (beh : ProcBehavior)
  | launchRaised (err : String)
deriving DecidableEq

/-- Result of the `for line in iter(process.stdout.readline, "")` loop:
`collected` is `output_lines` on exit (truncation marker included when it was
appended), `streamed` is the sequence of lines handed to `stream_callback`,
`killed` records whether `process.kill()` was invoked (the truncation
branch). -/
structure ReadResult where
  collected : List String
  streamed : List String
  killed : Bool
deriving DecidableEq

/-- The read loop of `execute_command`: append the line to `output_lines`,
invoke the callback, then stop (appending the marker and killing the
process) as soon as the cumulative character count exceeds
`MAX_OUTPUT_CHARS`. -/
def readLoop : List String → List String → List String → ReadResult
  | [], acc, streamed => ⟨acc, streamed, false⟩
  | l :: rest, acc, streamed =>
    let acc' := acc ++ [l]
    let streamed' := streamed ++ [l]
    if (acc'.map String.length).sum > MAX_OUTPUT_CHARS then
      ⟨acc' ++ [truncationMarker], streamed', true⟩
    else
      readLoop rest acc' streamed'

/-- Externally visible effects of one `execute_command` call. -/
structure ExecEffects where
  popenCalled : Bool
  killed : Bool
  streamed : List String
deriving DecidableEq

/-- `execute_command(cmd, stream_callback)`.  `hasCallback` records whether a
`stream_callback` was passed (`if stream_callback:` guard); `p` is the
environment's behaviour for the `Popen` call.  Mirrors `bridge.py` 75-101:
blocked commands return exit code 1 without calling `Popen`; a truncated run
returns the killed process's return code with the collected output; a clean
EOF returns `process.returncode` with the joined output; `TimeoutExpired`
yields exit code -1 with the timeout message (killing the process); any
other exception yields exit code -1 with the error text. -/
def execute_command (cmd : String) (hasCallback : Bool) (p : LaunchOutcome) :
    ExecResult × ExecEffects :=
  if is_dangerous cmd then
    (⟨1, blockedMessage⟩, ⟨false, false, []⟩)
  else
    match p with
    | .launchRaised e => (⟨-1, "❌ Execution error: " ++ e⟩, ⟨true, false, []⟩)
    | .launched beh =>
      let r := readLoop beh.lines [] []
      let streamed := if hasCallback then r.streamed else []
      if r.killed then
        (⟨beh.killedCode, String.join r.collected⟩, ⟨true, true, streamed⟩)
      else
        match beh.ending with
        | .exited rc => (⟨rc, String.join r.collected⟩, ⟨true, false, streamed⟩)
        | .waitTimeout => (⟨-1, timeoutMessage⟩, ⟨true, true, streamed⟩)
        | .raised e => (⟨-1, "❌ Execution error: " ++ e⟩, ⟨true, false, streamed⟩)

/-! ### Transport client (`bridge.py` lines 45-67) -/

/-- Outcome of `body = e.read().decode() if e.fp else ""` inside the
`HTTPError` handler, for the case where `e.fp` is set and the body is
actually read: a decoded string, or an exception raised by the read or the
decode itself (e.g. `UnicodeDecodeError` on non-UTF-8 bytes, or a transport
failure while reading the error body). -/
inductive BodyRead where
  | decoded (body : String)
  | readRaised (err : String)
deriving DecidableEq

/-- Outcome of one HTTP round trip as seen by `api_request`'s handlers:
a successfully decoded response value; an `urllib.error.HTTPError` carrying
a status code, whether `e.fp` is set, and the outcome of reading/decoding
the error body (consulted only when `e.fp` is set); or any other exception
of the `try` body — DNS/connection failures, timeouts, and `json.loads`
decode errors all land in the final `except Exception` arm. -/
inductive ApiOutcome (α : Type) where
  | success (v : α)
  | httpError (code : Nat) (fp : Bool) (rd : BodyRead)
  | failed (err : String)
deriving DecidableEq

/-- Result of one `api_request` call: a normal return (the optional decoded
value, plus the printed diagnostic lines), or an exception propagating past
`api_request` to its caller. -/
inductive ApiResult (α : Type) where
  | returns (val : Option α) (printed : List String)
  | raises (err : String)
deriving DecidableEq

/-- `api_request` (`bridge.py` 45-67): returns the decoded structure on
success; on `HTTPError` computes `body = e.read().decode() if e.fp else ""`
— an expression evaluated inside the `except` clause, so if the read/decode
raises, that exception is NOT caught by the sibling `except Exception` and
propagates to the caller — then prints the status code with the body
truncated to 200 characters and returns `None`; any other exception of the
`try` body prints the error and returns `None`. -/
def api_request {α : Type} (o : ApiOutcome α) : ApiResult α :=
  match o with
  | .success v => .returns (some v) []
  | .httpError code fp rd =>
    match (if fp then rd else .decoded "") with
    | .decoded body =>
      .returns none ["  ⚠ API error " ++ toString code ++ ": " ++ body.take 200]
    | .readRaised e => .raises e
  | .failed e => .returns none ["  ⚠ Request failed: " ++ e]

/-! ### Poll loop (`bridge.py` lines 154-237) -/

/-- Python truthiness of an optional string (`None` and `""` are falsy). -/
def pyTruthy : Option String → Bool
  | none => false
  | some s => s != ""

/-- The fields of a decoded `bridge-poll` response that the loop consumes
(`result.get(...)`: `none` models an absent key; Python truthiness of the
present values is checked separately). -/
structure PollResp where
  session_id : Option String
  command : Option String
  command_id : Option String
deriving DecidableEq

/-- Environment input consumed by one loop iteration: the value of
`time.time()` at the heartbeat check, the outcome of the `bridge-poll`
request (`none` models `api_request` returning `None`), and — if a command
is executed this iteration — the behaviour of its subprocess. -/
structure IterInput where
  now : Nat
  pollResult : Option PollResp
  proc : LaunchOutcome
deriving DecidableEq

/-- Observable actions of the poll loop, in program order. -/
inductive Action where
  | heartbeat (t : Nat)
  | pollReq (sid : Option String)
  | sleep (secs : Nat)
  | streamChunk (cid : String) (line : String)
  | execDone (cid : String)
  | reportResult (cid : String) (exit_code : Int) (output : String)
deriving DecidableEq

/-- The loop's mutable state: the locals `backoff`, `consecutive_errors`,
`last_heartbeat` of `poll_loop` and the module-global `session_id`. -/
structure LoopState where
  backoff : Nat
  consecutive_errors : Nat
  session_id : Option String
  last_heartbeat : Nat
deriving DecidableEq

/-- One iteration of the `while running` body (`bridge.py` 168-228):
heartbeat check, poll request (carrying the current `session_id`), then
either the failure path (increment `consecutive_errors`, double `backoff`
beyond 10 failures capped at 60, sleep `backoff`) or the success path
(reset the counter and backoff, adopt a truthy `session_id` from the
response, execute-stream-report a present command, sleep `poll_interval`). -/
def iterStep (poll_interval : Nat) (s : LoopState) (inp : IterInput) :
    List Action × LoopState :=
  let hbActs : List Action :=
    if inp.now - s.last_heartbeat > 60 then [.heartbeat inp.now] else []
  let lh : Nat :=
    if inp.now - s.last_heartbeat > 60 then inp.now else s.last_heartbeat
  match inp.pollResult with
  | none =>
    let errs := s.consecutive_errors + 1
    let b := if errs > 10 then min (s.backoff * 2) 60 else s.backoff
    (hbActs ++ [.pollReq s.session_id, .sleep b], ⟨b, errs, s.session_id, lh⟩)
  | some r =>
    let sid := if pyTruthy r.session_id then r.session_id else s.session_id
    let cmdActs : List Action :=
      match r.command, r.command_id with
      | some cmd, some cid =>
        if cmd ≠ "" ∧ cid ≠ "" then
          let re := execute_command cmd true inp.proc
          ((re.2.streamed).map (Action.streamChunk cid)) ++
            [.execDone cid, .reportResult cid re.1.exit_code re.1.output]
        else []
      | _, _ => []
    (hbActs ++ [.pollReq s.session_id] ++ cmdActs ++ [.sleep poll_interval],
     ⟨1, 0, sid, lh⟩)

/-- Run the loop body once per input, threading the state (the loop with the
`running` flag never observed false before the inputs run out). -/
def runIters (pi : Nat) : LoopState → List IterInput → List (List Action) × LoopState
  | s, [] => ([], s)
  | s, inp :: rest =>
    let p := iterStep pi s inp
    let q := runIters pi p.2 rest
    (p.1 :: q.1, q.2)

/-- `poll_loop`'s `while running` loop: `fuel` is the number of times the
`running` flag is observed true at the top of the loop; the signal handler
clears it during iteration `fuel` (or while that iteration sleeps), so the
iteration in progress completes and the loop then exits without starting
another. -/
def poll_loop_iters (pi : Nat) : Nat → LoopState → List IterInput → List (List Action) × LoopState
  | 0, s, _ => ([], s)
  | _ + 1, s, [] => ([], s)
  | fuel + 1, s, inp :: rest =>
    let p := iterStep pi s inp
    let q := poll_loop_iters pi fuel p.2 rest
    (p.1 :: q.1, q.2)

/-- Initial loop state: `backoff = 1`, `consecutive_errors = 0`,
`last_heartbeat = 0`, with the current value of the global `session_id`. -/
def initState (sid : Option String) : LoopState := ⟨1, 0, sid, 0⟩

/-- `poll_loop(...)` from a fresh call with the global `session_id` equal to
`sid`, returning the per-iteration action lists and the final state. -/
def poll_loop (pi : Nat) (sid : Option String) (fuel : Nat)
    (inputs : List IterInput) : List (List Action) × LoopState :=
  poll_loop_iters pi fuel (initState sid) inputs

/-- The auto-restart wrapper in `handle_bridge` (lines 259-272): when
`poll_loop` returns and `auto_restart` is set with `running` still true, the
loop is relaunched; `backoff`, `consecutive_errors` and `last_heartbeat` are
locals re-initialised by `poll_loop`, while the global `session_id` persists
across the restart. -/
def poll_loop_restart (pi : Nat) (sid : Option String)
    (fuel₁ : Nat) (inputs₁ : List IterInput)
    (fuel₂ : Nat) (inputs₂ : List IterInput) : List (List Action) × LoopState :=
  let r₁ := poll_loop pi sid fuel₁ inputs₁
  let r₂ := poll_loop pi r₁.2.session_id fuel₂ inputs₂
  (r₁.1 ++ r₂.1, r₂.2)

/-! ### Startup (`bridge.py` lines 240-274) -/

/-- The command-line arguments consumed by `handle_bridge` (those relevant
to key validation; `none` models a falsy/absent value from argparse). -/
structure Args where
  bridge_action : Option String
  key : Option String
deriving DecidableEq

/-- The configuration fields consumed by the key check; `load_config`
defaults `bridge_key` to `""`, modelled as `some ""` (falsy). -/
structure Config where
  bridge_key : Option String
deriving DecidableEq

/-- Python `a or b` on optional strings: `b` unless `a` is truthy. -/
def pyOr (a b : Option String) : Option String := if pyTruthy a then a else b

/-- `handle_bridge` for the `start` action: validate the bridge key, exiting
the process with status 1 (`Sum.inl`) before anything else — in particular
before `poll_loop` is entered, so an exit carries no loop trace and hence no
network call.  On success (`Sum.inr`), the poll loop runs (with the global
`session_id` initially `None`). -/
def handle_bridge (args : Args) (cfg : Config) (pi : Nat) (fuel : Nat)
    (inputs : List IterInput) : Nat ⊕ List (List Action) :=
  if args.bridge_action = none ∨ args.bridge_action = some "start" then
    match pyOr args.key cfg.bridge_key with
    | none => Sum.inl 1
    | some k =>
      if k = "" then Sum.inl 1
      else if ¬ k.startsWith "pb_" then Sum.inl 1
      else Sum.inr (poll_loop pi none fuel inputs).1
  else Sum.inr []

/-! ### Trace projections and specification-side recurrences -/

/-- Is this action a heartbeat emission? -/
def isHbAct : Action → Bool
  | .heartbeat _ => true
  | _ => false

/-- The duration of a sleep action, if it is one. -/
def getSleep : Action → Option Nat
  | .sleep d => some d
  | _ => none

/-- The sleeps performed during a list of actions. -/
def iterSleeps (acts : List Action) : List Nat := acts.filterMap getSleep

/-- The session id carried by a poll request, if the action is one. -/
def getPollSid : Action → Option (Option String)
  | .pollReq sid => some sid
  | _ => none

/-- The session ids carried by the poll requests of a trace, in order. -/
def pollSids (acts : List Action) : List (Option String) := acts.filterMap getPollSid

/-- Is this action a result report for command id `c`? -/
def isReportFor (c : String) : Action → Bool
  | .reportResult c' _ _ => c' == c
  | _ => false

/-- Scan a trace, tracking the command ids whose execution has completed;
fails (`none`) at the first result report whose command's execution has not
completed earlier in the trace. -/
def reportsFollowDoneAux (done : List String) : List Action → Option (List String)
  | [] => some done
  | .execDone c :: rest => reportsFollowDoneAux (c :: done) rest
  | .reportResult c _ _ :: rest =>
    if done.contains c then reportsFollowDoneAux done rest else none
  | _ :: rest => reportsFollowDoneAux done rest

/-- Every result report in the trace is preceded by the completion (or
forced termination) of that command's execution. -/
def reportsOrdered (acts : List Action) : Bool := (reportsFollowDoneAux [] acts).isSome

/-- The command id an iteration input delivers for execution, if any — the
`if command and command_id:` condition of the loop body. -/
def inputCmdId (inp : IterInput) : Option String :=
  match inp.pollResult with
  | none => none
  | some r =>
    match r.command, r.command_id with
    | some cmd, some cid => if cmd ≠ "" ∧ cid ≠ "" then some cid else none
    | _, _ => none

/-- How one poll outcome updates the global `session_id`
(`if result.get("session_id"): session_id = result["session_id"]`). -/
def sidUpdate (s : Option String) (pr : Option PollResp) : Option String :=
  match pr with
  | none => s
  | some r => if pyTruthy r.session_id then r.session_id else s

/-- `sidUpdate` folded over a sequence of poll outcomes. -/
def sidFold (s : Option String) (l : List (Option PollResp)) : Option String :=
  l.foldl sidUpdate s

/-- The session id each successive poll request carries, given the starting
id and the sequence of poll outcomes: each poll carries the currently
assigned id, then the outcome may reassign it. -/
def sidTrajectory (s : Option String) : List (Option PollResp) → List (Option String)
  | [] => []
  | pr :: rest => s :: sidTrajectory (sidUpdate s pr) rest

/-- Which iterations emit a heartbeat, given the last-emission time and the
clock value of each iteration: emit exactly when strictly more than 60
seconds have elapsed. -/
def hbTrajectory (last : Nat) : List Nat → List Bool
  | [] => []
  | t :: ts =>
    if t - last > 60 then true :: hbTrajectory t ts else false :: hbTrajectory last ts

/-- The clock values at which heartbeats are emitted. -/
def hbTimes (last : Nat) : List Nat → List Nat
  | [] => []
  | t :: ts => if t - last > 60 then t :: hbTimes t ts else hbTimes last ts

/-- The backoff delay slept after the `k`-th consecutive poll failure. -/
def expectedBackoff (k : Nat) : Nat :=
  if k ≤ 10 then 1 else min (2 ^ (k - 10)) 60

/-- The command-related actions of one iteration (empty when no command is
delivered): stream chunks, execution completion, result report. -/
def iterCmdActs (inp : IterInput) : List Action :=
  match inp.pollResult with
  | none => []
  | some r =>
    match r.command, r.command_id with
    | some cmd, some cid =>
      if cmd ≠ "" ∧ cid ≠ "" then
        ((execute_command cmd true inp.proc).2.streamed).map (Action.streamChunk cid) ++
          [.execDone cid,
           .reportResult cid (execute_command cmd true inp.proc).1.exit_code
             (execute_command cmd true inp.proc).1.output]
      else []
    | _, _ => []

/-- The value of `backoff` after one iteration. -/
def iterNewBackoff (s : LoopState) (inp : IterInput) : Nat :=
  match inp.pollResult with
  | none => if s.consecutive_errors + 1 > 10 then min (s.backoff * 2) 60 else s.backoff
  | some _ => 1

/-- The value of `consecutive_errors` after one iteration. -/
def iterNewErrs (s : LoopState) (inp : IterInput) : Nat :=
  match inp.pollResult with
  | none => s.consecutive_errors + 1
  | some _ => 0

/-- The duration of the sleep ending one iteration: the updated backoff on a
poll failure, the nominal `poll_interval` otherwise. -/
def iterSleepLen (pi : Nat) (s : LoopState) (inp : IterInput) : Nat :=
  match inp.pollResult with
  | none => iterNewBackoff s inp
  | some _ => pi

/-! ## C1: deny-list patterns block execution -/

/-- `d` has a non-whitespace character at each end (true of every deny-list
pattern), so stripping cannot destroy an occurrence of `d`. -/
def noWsEdge (d : List Char) : Bool :=
  match d.head?, d.getLast? with
  | some a, some b => !isPyWs a && !isPyWs b
  | _, _ => false

theorem isInfixList_iff (needle : List Char) :
    ∀ hay, isInfixList needle hay = true ↔ needle <:+: hay := by
  intro hay
  induction hay with
  | nil => simp [isInfixList, List.isEmpty_iff, List.infix_nil]
  | cons a as ih =>
    simp [isInfixList, ih, List.infix_cons_iff, List.isPrefixOf_iff_prefix]

theorem infix_dropWhile_of_head (p : Char → Bool) (d l : List Char)
    (hne : d ≠ []) (hh : ∀ c, d.head? = some c → p c = false)
    (hinf : d <:+: l) : d <:+: l.dropWhile p := by
  obtain ⟨s, t, rfl⟩ := hinf
  obtain ⟨c, d', rfl⟩ : ∃ c d', d = c :: d' := by
    cases d with
    | nil => exact absurd rfl hne
    | cons c d' => exact ⟨c, d', rfl⟩
  have hc : p c = false := hh c rfl
  rw [List.append_assoc, List.dropWhile_append]
  split
  · rw [show (c :: d') ++ t = c :: (d' ++ t) by simp, List.dropWhile_cons, hc]
    exact ⟨[], t, by simp⟩
  · exact ⟨s.dropWhile p, t, by simp⟩

theorem infix_strip (d l : List Char) (hedge : noWsEdge d = true)
    (hinf : d <:+: l) :
    d <:+: ((l.dropWhile isPyWs).reverse.dropWhile isPyWs).reverse := by
  have hne : d ≠ [] := by
    intro h; subst h; simp [noWsEdge] at hedge
  have hh : ∀ c, d.head? = some c → isPyWs c = false := by
    intro c hc
    unfold noWsEdge at hedge
    rw [hc] at hedge
    cases hgl : d.getLast? with
    | none => rw [hgl] at hedge; simp at hedge
    | some b => rw [hgl] at hedge; simp at hedge; exact hedge.1
  have hl : ∀ c, d.reverse.head? = some c → isPyWs c = false := by
    intro c hc
    rw [List.head?_reverse] at hc
    unfold noWsEdge at hedge
    rw [hc] at hedge
    cases hhd : d.head? with
    | none => rw [hhd] at hedge; simp at hedge
    | some b => rw [hhd] at hedge; simp at hedge; exact hedge.2
  have h1 : d <:+: l.dropWhile isPyWs := infix_dropWhile_of_head _ _ _ hne hh hinf
  have h2 : d.reverse <:+: (l.dropWhile isPyWs).reverse :=
    List.reverse_infix.mpr h1
  have h3 : d.reverse <:+: (l.dropWhile isPyWs).reverse.dropWhile isPyWs :=
    infix_dropWhile_of_head _ _ _ (by simpa using hne) hl h2
  have h4 := List.reverse_infix.mpr h3
  simpa using h4

/-- All deny-list patterns have non-whitespace characters at both ends. -/
theorem dangerous_noWsEdge : ∀ d ∈ DANGEROUS_COMMANDS, noWsEdge d.data = true := by
  decide

/--
C1 (amended): for every command string whose lowercased text contains a
deny-list pattern as a substring, `is_dangerous` returns true and
`execute_command` returns immediately with the blocked exit code 1 and the
blocked message, without calling `Popen` (no process spawned, nothing
killed, nothing streamed).  The blocked exit code is distinguished from the
`-1` timeout/internal-error sentinel — though, being 1, it coincides with
the conventional non-zero failure exit code (see the counterexample).
-/
theorem dangerous_commands_blocked (cmd d : String)
    (hd : d ∈ DANGEROUS_COMMANDS)
    (hin : isInfixList d.data (pyLower cmd).data = true) :
    is_dangerous cmd = true ∧
    ∀ (cb : Bool) (p : LaunchOutcome),
      execute_command cmd cb p = (⟨1, blockedMessage⟩, ⟨false, false, []⟩) ∧
      (execute_command cmd cb p).1.exit_code ≠ -1 := by
  have hedge : noWsEdge d.data = true := dangerous_noWsEdge d hd
  have hstrip : d.data <:+:
      (((pyLower cmd).data.dropWhile isPyWs).reverse.dropWhile isPyWs).reverse :=
    infix_strip _ _ hedge ((isInfixList_iff _ _).mp hin)
  have hdang : is_dangerous cmd = true := by
    unfold is_dangerous
    rw [List.any_eq_true]
    refine ⟨d, hd, ?_⟩
    unfold strContains pyStrip
    exact (isInfixList_iff _ _).mpr hstrip
  refine ⟨hdang, fun cb p => ?_⟩
  unfold execute_command
  rw [hdang]
  exact ⟨rfl, by simp⟩

/-- Witness for C1 at a concrete input: `"sudo RM -rf /"` lowercases to a
string containing the deny-list pattern `"rm -rf /"` and is blocked. -/
theorem dangerous_commands_blocked_witness :
    is_dangerous "sudo RM -rf /" = true ∧
    execute_command "sudo RM -rf /" true (.launchRaised "unused")
      = (⟨1, blockedMessage⟩, ⟨false, false, []⟩) := by
  have h := dangerous_commands_blocked "sudo RM -rf /" "rm -rf /"
    (by decide) (by decide)
  exact ⟨h.1, (h.2 true (.launchRaised "unused")).1⟩

/-- Counterexample to C1 as stated: the blocked sentinel exit code (1) is
not distinguished from a conventional non-zero failure exit code — a safe
command whose process exits with status 1 yields the very same
`exit_code`. -/
theorem blocked_code_equals_plain_failure_code :
    (execute_command "rm -rf /" false (.launched ⟨[], .exited 0, 0⟩)).1.exit_code = 1 ∧
    is_dangerous "false" = false ∧
    (execute_command "false" false (.launched ⟨[], .exited 1, 0⟩)).1.exit_code = 1 := by
  refine ⟨?_, by decide, ?_⟩ <;> decide

/-! ## String.join helpers -/

theorem foldl_string_append (l : List String) :
    ∀ a b : String, l.foldl (fun r s => r ++ s) (a ++ b) = a ++ l.foldl (fun r s => r ++ s) b := by
  induction l with
  | nil => intro a b; rfl
  | cons c l ih =>
    intro a b
    simp only [List.foldl_cons]
    rw [String.append_assoc, ih]

theorem join_cons (a : String) (l : List String) :
    String.join (a :: l) = a ++ String.join l := by
  show l.foldl (fun r s => r ++ s) ("" ++ a) = a ++ String.join l
  rw [show ("" ++ a : String) = a ++ "" by simp, foldl_string_append]
  rfl

theorem join_concat (l : List String) (x : String) :
    String.join (l ++ [x]) = String.join l ++ x := by
  induction l with
  | nil =>
    show String.join [x] = String.join [] ++ x
    rw [join_cons]
    show x ++ "" = "" ++ x
    rw [String.append_empty, String.empty_append]
  | cons a l ih => rw [List.cons_append, join_cons, ih, join_cons, String.append_assoc]

theorem length_join (l : List String) :
    (String.join l).length = (l.map String.length).sum := by
  induction l with
  | nil => rfl
  | cons a l ih => rw [join_cons, String.length_append, List.map_cons, List.sum_cons, ih]

/-! ## Read-loop characterisation -/

theorem readLoop_nil (acc st : List String) : readLoop [] acc st = ⟨acc, st, false⟩ := rfl

theorem readLoop_cons (l : String) (rest acc st : List String) :
    readLoop (l :: rest) acc st =
      if ((acc ++ [l]).map String.length).sum > MAX_OUTPUT_CHARS then
        ⟨acc ++ [l] ++ [truncationMarker], st ++ [l], true⟩
      else readLoop rest (acc ++ [l]) (st ++ [l]) := rfl

/-- When the read loop kills the process, the lines split as
`pre ++ last :: rest`: `pre` stays within the cap, `last` is the first line
to push past it (after being streamed), the marker is appended, and `rest`
is never read. -/
theorem readLoop_killed_spec :
    ∀ (lines acc st : List String),
    (acc.map String.length).sum ≤ MAX_OUTPUT_CHARS →
    ((acc ++ lines).map String.length).sum > MAX_OUTPUT_CHARS →
    ∃ pre last rest,
      lines = pre ++ last :: rest ∧
      readLoop lines acc st =
        ⟨(acc ++ pre ++ [last]) ++ [truncationMarker], st ++ pre ++ [last], true⟩ ∧
      ((acc ++ pre).map String.length).sum ≤ MAX_OUTPUT_CHARS ∧
      ((acc ++ pre ++ [last]).map String.length).sum > MAX_OUTPUT_CHARS := by
  intro lines
  induction lines with
  | nil =>
    intro acc st hacc htot
    simp at htot
    omega
  | cons l rest ih =>
    intro acc st hacc htot
    by_cases hl : ((acc ++ [l]).map String.length).sum > MAX_OUTPUT_CHARS
    · refine ⟨[], l, rest, by simp, ?_, by simpa using hacc, by simpa using hl⟩
      rw [readLoop_cons, if_pos hl]
      simp
    · push_neg at hl
      have hrec := ih (acc ++ [l]) (st ++ [l]) hl
        (by simpa [List.append_assoc] using htot)
      obtain ⟨pre, last, rest', heq, hrun, hle, hgt⟩ := hrec
      refine ⟨l :: pre, last, rest', by simp [heq], ?_, ?_, ?_⟩
      · rw [readLoop_cons, if_neg (by omega), hrun]
        simp
      · simpa [List.append_assoc] using hle
      · simpa [List.append_assoc] using hgt

/-- General collected/streamed relation of the read loop: the collected
output is the streamed prefix of the lines, with the truncation marker
appended exactly when the process was killed; without truncation every line
is streamed. -/
theorem readLoop_stream_spec :
    ∀ (lines acc st : List String),
    ∃ X, (readLoop lines acc st).collected =
        acc ++ X ++ (if (readLoop lines acc st).killed then [truncationMarker] else []) ∧
      (readLoop lines acc st).streamed = st ++ X ∧
      X <+: lines ∧
      ((readLoop lines acc st).killed = false → X = lines) := by
  intro lines
  induction lines with
  | nil =>
    intro acc st
    exact ⟨[], by simp [readLoop_nil], by simp [readLoop_nil], List.nil_prefix,
      fun _ => rfl⟩
  | cons l rest ih =>
    intro acc st
    by_cases hl : ((acc ++ [l]).map String.length).sum > MAX_OUTPUT_CHARS
    · rw [readLoop_cons, if_pos hl]
      refine ⟨[l], by simp, by simp, ⟨rest, rfl⟩, by simp⟩
    · rw [readLoop_cons, if_neg hl]
      obtain ⟨X, hc, hs, hp, hnk⟩ := ih (acc ++ [l]) (st ++ [l])
      refine ⟨l :: X, by simpa using hc, by simpa using hs, ?_,
        fun hk => by rw [hnk hk]⟩
      obtain ⟨t, ht⟩ := hp
      exact ⟨t, by simp [← ht]⟩

/-! ## C3: executor totality and error sentinels -/

/--
C3: `execute_command` is total by construction (it returns an
`ExecResult` for every command and every environment behaviour, so no
exception propagates to the caller), and: when the wait for termination
exceeds the 300-second ceiling the process is killed and the result is the
`-1` timeout sentinel with the explanatory message; a failing `Popen` call
or any other unexpected exception yields the `-1` internal-error sentinel
with the error text in the output.
-/
theorem execute_command_sentinels (cmd : String) (hsafe : is_dangerous cmd = false) :
    (∀ (cb : Bool) (beh : ProcBehavior),
      (readLoop beh.lines [] []).killed = false → beh.ending = .waitTimeout →
      execute_command cmd cb (.launched beh) =
        (⟨-1, timeoutMessage⟩,
         ⟨true, true, if cb then (readLoop beh.lines [] []).streamed else []⟩)) ∧
    (∀ (cb : Bool) (e : String),
      execute_command cmd cb (.launchRaised e) =
        (⟨-1, "❌ Execution error: " ++ e⟩, ⟨true, false, []⟩)) ∧
    (∀ (cb : Bool) (beh : ProcBehavior) (e : String),
      (readLoop beh.lines [] []).killed = false → beh.ending = .raised e →
      execute_command cmd cb (.launched beh) =
        (⟨-1, "❌ Execution error: " ++ e⟩,
         ⟨true, false, if cb then (readLoop beh.lines [] []).streamed else []⟩)) := by
  refine ⟨?_, ?_, ?_⟩
  · intro cb beh hk he
    unfold execute_command
    rw [hsafe]
    simp only [Bool.false_eq_true, if_neg, not_false_iff, hk, he]
  · intro cb e
    unfold execute_command
    rw [hsafe]
    simp
  · intro cb beh e hk he
    unfold execute_command
    rw [hsafe]
    simp only [Bool.false_eq_true, if_neg, not_false_iff, hk, he]

/-- Witness for C3: a silent command whose wait exceeds the ceiling yields
the timeout sentinel, and a failed launch yields the internal-error
sentinel. -/
theorem execute_command_sentinels_witness :
    execute_command "sleep 900" false (.launched ⟨[], .waitTimeout, -9⟩) =
      (⟨-1, timeoutMessage⟩, ⟨true, true, []⟩) ∧
    execute_command "sleep 900" false (.launchRaised "oops") =
      (⟨-1, "❌ Execution error: " ++ "oops"⟩, ⟨true, false, []⟩) := by
  have h := execute_command_sentinels "sleep 900" (by decide)
  exact ⟨h.1 false ⟨[], .waitTimeout, -9⟩ (by decide) rfl, h.2.1 false "oops"⟩

/-! ## C4: output cap and truncation -/

/--
C4: for every execution whose available output exceeds the 50000-character
cap, reading stops at the first line pushing past the cap (`rest` is never
read), the process is killed, the result output ends with the truncation
marker, and the buffered output exceeds the cap by at most that one line's
length plus the marker.
-/
theorem output_cap_truncation (cmd : String) (cb : Bool) (beh : ProcBehavior)
    (hsafe : is_dangerous cmd = false)
    (hbig : (beh.lines.map String.length).sum > MAX_OUTPUT_CHARS) :
    ∃ pre last rest,
      beh.lines = pre ++ last :: rest ∧
      (execute_command cmd cb (.launched beh)).2.killed = true ∧
      (execute_command cmd cb (.launched beh)).1.output
        = String.join (pre ++ [last]) ++ truncationMarker ∧
      (pre.map String.length).sum ≤ MAX_OUTPUT_CHARS ∧
      (execute_command cmd cb (.launched beh)).1.output.length
        ≤ MAX_OUTPUT_CHARS + last.length + truncationMarker.length := by
  obtain ⟨pre, last, rest, heq, hrun, hle, hgt⟩ :=
    readLoop_killed_spec beh.lines [] [] (by simp) (by simpa using hbig)
  have hrun' : readLoop beh.lines [] [] =
      ⟨(pre ++ [last]) ++ [truncationMarker], pre ++ [last], true⟩ := by
    rw [hrun]; simp
  have hexec : execute_command cmd cb (.launched beh) =
      (⟨beh.killedCode, String.join ((pre ++ [last]) ++ [truncationMarker])⟩,
       ⟨true, true, if cb then pre ++ [last] else []⟩) := by
    unfold execute_command
    rw [hsafe]
    simp only [Bool.false_eq_true, if_neg, not_false_iff, hrun']
    simp
  have hout : String.join ((pre ++ [last]) ++ [truncationMarker])
      = String.join (pre ++ [last]) ++ truncationMarker := join_concat _ _
  refine ⟨pre, last, rest, heq, by rw [hexec], by rw [hexec]; exact hout, by simpa using hle, ?_⟩
  rw [hexec]
  show (String.join ((pre ++ [last]) ++ [truncationMarker])).length ≤ _
  rw [hout, String.length_append, length_join]
  have hp : (pre.map String.length).sum ≤ MAX_OUTPUT_CHARS := by simpa using hle
  simp only [List.map_append, List.sum_append, List.map_cons, List.sum_cons]
  simp at hp ⊢
  omega

/-- Witness for C4: a single 50001-character line exceeds the cap, so the
process is killed and the output is that line followed by the marker. -/
theorem output_cap_truncation_witness :
    is_dangerous "yes" = false ∧
    ∃ pre last rest,
      ([⟨List.replicate 50001 'a'⟩] : List String) = pre ++ last :: rest ∧
      (execute_command "yes" false
        (.launched ⟨[⟨List.replicate 50001 'a'⟩], .exited 0, -9⟩)).2.killed = true ∧
      (execute_command "yes" false
        (.launched ⟨[⟨List.replicate 50001 'a'⟩], .exited 0, -9⟩)).1.output
        = String.join (pre ++ [last]) ++ truncationMarker ∧
      (pre.map String.length).sum ≤ MAX_OUTPUT_CHARS ∧
      (execute_command "yes" false
        (.launched ⟨[⟨List.replicate 50001 'a'⟩], .exited 0, -9⟩)).1.output.length
        ≤ MAX_OUTPUT_CHARS + last.length + truncationMarker.length := by
  constructor
  · decide
  · refine output_cap_truncation "yes" false ⟨[⟨List.replicate 50001 'a'⟩], .exited 0, -9⟩
      (by decide) ?_
    have h1 : (String.mk (List.replicate 50001 'a')).length = 50001 := by
      rw [show (String.mk (List.replicate 50001 'a')).length
          = (List.replicate 50001 'a').length from rfl, List.length_replicate]
    show ((([⟨List.replicate 50001 'a'⟩] : List String)).map String.length).sum
      > MAX_OUTPUT_CHARS
    simp only [List.map_cons, List.map_nil, List.sum_cons, List.sum_nil, h1,
      MAX_OUTPUT_CHARS]
    omega

/-! ## C10: streaming callback behaviour -/

/--
C10: with a streaming callback present, the callback receives exactly the
collected output lines, in order, each with its exact text (`streamed` is a
prefix of the process's lines, and equals all of them when no truncation
occurs); the line that overflows the cap is itself streamed before the size
check; and the truncation marker appended on overflow appears in the final
result output but is never passed to the callback (`collected` differs from
`streamed` exactly by the marker).
-/
theorem stream_callback_exact (cmd : String) (beh : ProcBehavior)
    (hsafe : is_dangerous cmd = false) :
    (execute_command cmd true (.launched beh)).2.streamed
      = (readLoop beh.lines [] []).streamed ∧
    (readLoop beh.lines [] []).streamed <+: beh.lines ∧
    (readLoop beh.lines [] []).collected
      = (readLoop beh.lines [] []).streamed
          ++ (if (readLoop beh.lines [] []).killed then [truncationMarker] else []) ∧
    ((readLoop beh.lines [] []).killed = false →
      (readLoop beh.lines [] []).streamed = beh.lines) ∧
    ((readLoop beh.lines [] []).killed = true →
      (execute_command cmd true (.launched beh)).1.output
        = String.join ((readLoop beh.lines [] []).streamed) ++ truncationMarker) := by
  obtain ⟨X, hc, hs, hp, hnk⟩ := readLoop_stream_spec beh.lines [] []
  have hs' : (readLoop beh.lines [] []).streamed = X := by simpa using hs
  have hstream : (execute_command cmd true (.launched beh)).2.streamed
      = (readLoop beh.lines [] []).streamed := by
    unfold execute_command
    rw [hsafe]
    simp only [Bool.false_eq_true, if_neg, not_false_iff]
    by_cases hk : (readLoop beh.lines [] []).killed
    · simp [hk]
    · cases he : beh.ending <;> simp [hk, he]
  refine ⟨hstream, by rw [hs']; exact hp, by rw [hs']; simpa using hc,
    fun hk => by rw [hs']; exact hnk hk, fun hk => ?_⟩
  have hcol : (readLoop beh.lines [] []).collected = X ++ [truncationMarker] := by
    rw [hk] at hc; simpa using hc
  have hout : (execute_command cmd true (.launched beh)).1.output
      = String.join ((readLoop beh.lines [] []).collected) := by
    unfold execute_command
    rw [hsafe]
    simp only [Bool.false_eq_true, if_neg, not_false_iff, hk]
    simp
  rw [hout, hcol, hs', join_concat]

/-- Witness for C10: `"echo hi"` with one output line streams exactly that
line and appends no marker. -/
theorem stream_callback_exact_witness :
    (execute_command "echo hi" true (.launched ⟨["hi\n"], .exited 0, -9⟩)).2.streamed
      = (readLoop ["hi\n"] [] []).streamed ∧
    (readLoop ["hi\n"] [] []).streamed <+: ["hi\n"] ∧
    (readLoop ["hi\n"] [] []).collected
      = (readLoop ["hi\n"] [] []).streamed
          ++ (if (readLoop ["hi\n"] [] []).killed then [truncationMarker] else []) ∧
    ((readLoop ["hi\n"] [] []).killed = false →
      (readLoop ["hi\n"] [] []).streamed = ["hi\n"]) ∧
    ((readLoop ["hi\n"] [] []).killed = true →
      (execute_command "echo hi" true (.launched ⟨["hi\n"], .exited 0, -9⟩)).1.output
        = String.join ((readLoop ["hi\n"] [] []).streamed) ++ truncationMarker) :=
  stream_callback_exact "echo hi" ⟨["hi\n"], .exited 0, -9⟩ (by decide)

/-! ## C6: transport client failure modes -/

/--
C6 (amended): `api_request` returns the decoded response structure on
success; on an HTTP-level error response whose body is absent (`e.fp`
unset) or reads and decodes cleanly, it returns `None` after surfacing the
status code and the body truncated to 200 characters; on any other
exception of the `try` body (DNS, connection refused, timeout, malformed
response) it returns `None` after surfacing the underlying error — but a
failure of the error-body read/decode itself (`e.read().decode()` at
`bridge.py` line 62), raised inside the `HTTPError` handler, is not caught
by the sibling `except Exception` and propagates to the caller, so callers
may only null-check in the non-raising cases (see the counterexample).
-/
theorem api_request_failure_modes :
    (∀ v : PollResp, api_request (ApiOutcome.success v)
        = ApiResult.returns (some v) []) ∧
    (∀ (code : Nat) (body : String),
      api_request (ApiOutcome.httpError code true (BodyRead.decoded body)
          : ApiOutcome PollResp)
        = ApiResult.returns none
            ["  ⚠ API error " ++ toString code ++ ": " ++ body.take 200]) ∧
    (∀ (code : Nat) (rd : BodyRead),
      api_request (ApiOutcome.httpError code false rd : ApiOutcome PollResp)
        = ApiResult.returns none
            ["  ⚠ API error " ++ toString code ++ ": " ++ ("" : String).take 200]) ∧
    (∀ (code : Nat) (e : String),
      api_request (ApiOutcome.httpError code true (BodyRead.readRaised e)
          : ApiOutcome PollResp)
        = ApiResult.raises e) ∧
    (∀ e : String,
      api_request (ApiOutcome.failed e : ApiOutcome PollResp)
        = ApiResult.returns none ["  ⚠ Request failed: " ++ e]) :=
  ⟨fun _ => rfl, fun _ _ => rfl, fun _ _ => rfl, fun _ _ => rfl, fun _ => rfl⟩

/-- Counterexample to C6 as stated: an HTTP 500 error response whose body
read/decode fails inside the handler (e.g. non-UTF-8 bytes raising
`UnicodeDecodeError`) makes `api_request` raise past its boundary — the
result is `raises`, not the `None`-return the claim requires for every
HTTP-level error response. -/
theorem api_request_raises_on_bad_error_body :
    api_request (ApiOutcome.httpError 500 true
        (BodyRead.readRaised "UnicodeDecodeError: invalid start byte")
        : ApiOutcome PollResp)
      = ApiResult.raises "UnicodeDecodeError: invalid start byte" ∧
    (ApiResult.raises "UnicodeDecodeError: invalid start byte"
        : ApiResult PollResp)
      ≠ ApiResult.returns none
          ["  ⚠ API error " ++ toString 500 ++ ": "
            ++ ("UnicodeDecodeError: invalid start byte").take 200] := by
  exact ⟨rfl, by simp⟩

/-! ## Loop iteration shape -/

/-- One iteration, written as the canonical action shape (optional
heartbeat, the poll request carrying the current session id, the command
actions, the ending sleep) together with the state update. -/
theorem iterStep_eq (pi : Nat) (s : LoopState) (inp : IterInput) :
    iterStep pi s inp =
      ((if inp.now - s.last_heartbeat > 60 then [Action.heartbeat inp.now] else [])
          ++ [Action.pollReq s.session_id]
          ++ iterCmdActs inp
          ++ [Action.sleep (iterSleepLen pi s inp)],
       ⟨iterNewBackoff s inp, iterNewErrs s inp,
        sidUpdate s.session_id inp.pollResult,
        if inp.now - s.last_heartbeat > 60 then inp.now else s.last_heartbeat⟩) := by
  cases hp : inp.pollResult with
  | none =>
    simp [iterStep, iterCmdActs, iterNewBackoff, iterNewErrs, iterSleepLen, sidUpdate, hp]
  | some r =>
    cases hc : r.command with
    | none =>
      simp [iterStep, iterCmdActs, iterNewBackoff, iterNewErrs, iterSleepLen, sidUpdate,
        hp, hc]
    | some cmd =>
      cases hci : r.command_id with
      | none =>
        simp [iterStep, iterCmdActs, iterNewBackoff, iterNewErrs, iterSleepLen, sidUpdate,
          hp, hc, hci]
      | some cid =>
        by_cases hne : cmd ≠ "" ∧ cid ≠ "" <;>
          simp [iterStep, iterCmdActs, iterNewBackoff, iterNewErrs, iterSleepLen, sidUpdate,
            hp, hc, hci, hne]

theorem runIters_nil (pi : Nat) (s : LoopState) : runIters pi s [] = ([], s) := rfl

theorem runIters_cons (pi : Nat) (s : LoopState) (inp : IterInput) (rest : List IterInput) :
    runIters pi s (inp :: rest) =
      ((iterStep pi s inp).1 :: (runIters pi (iterStep pi s inp).2 rest).1,
       (runIters pi (iterStep pi s inp).2 rest).2) := rfl

/-- The fuelled loop is the plain loop over the first `fuel` inputs. -/
theorem poll_loop_iters_eq (pi : Nat) :
    ∀ (fuel : Nat) (s : LoopState) (inputs : List IterInput),
      poll_loop_iters pi fuel s inputs = runIters pi s (inputs.take fuel) := by
  intro fuel
  induction fuel with
  | zero => intro s inputs; rfl
  | succ n ih =>
    intro s inputs
    cases inputs with
    | nil => rfl
    | cons a as =>
      show (let p := iterStep pi s a
            let q := poll_loop_iters pi n p.2 as
            (p.1 :: q.1, q.2)) = _
      rw [List.take_succ_cons, runIters_cons]
      simp only [ih]

/-! ## Per-iteration projections -/

theorem filterMap_always_none {α β : Type} (L : List α) (f : α → Option β)
    (h : ∀ a, f a = none) : L.filterMap f = [] := by
  induction L with
  | nil => rfl
  | cons a L ih => simp [List.filterMap_cons, h, ih]

theorem any_always_false {α : Type} (L : List α) (p : α → Bool)
    (h : ∀ a, p a = false) : L.any p = false := by
  induction L with
  | nil => rfl
  | cons a L ih => simp [List.any_cons, h, ih]

theorem countP_always_false {α : Type} (L : List α) (p : α → Bool)
    (h : ∀ a, p a = false) : L.countP p = 0 := by
  induction L with
  | nil => rfl
  | cons a L ih => simp [List.countP_cons, h, ih]

theorem any_map_comp {α β : Type} (L : List α) (f : α → β) (p : β → Bool) :
    (L.map f).any p = L.any (p ∘ f) := by
  induction L with
  | nil => rfl
  | cons a L ih => simp [List.map_cons, List.any_cons, ih, Function.comp]

theorem getSleep_cmdActs (inp : IterInput) : (iterCmdActs inp).filterMap getSleep = [] := by
  unfold iterCmdActs
  cases hp : inp.pollResult with
  | none => rfl
  | some r =>
    obtain ⟨rsid, rcmd, rcid⟩ := r
    cases rcmd with
    | none => rfl
    | some cmd =>
      cases rcid with
      | none => rfl
      | some cid =>
        by_cases hne : cmd ≠ "" ∧ cid ≠ ""
        · simp only [if_pos hne, List.filterMap_append, List.filterMap_map]
          rw [filterMap_always_none ((execute_command cmd true inp.proc).2.streamed)
            (getSleep ∘ Action.streamChunk cid) (fun a => rfl)]
          rfl
        · simp [hne]

theorem getPollSid_cmdActs (inp : IterInput) :
    (iterCmdActs inp).filterMap getPollSid = [] := by
  unfold iterCmdActs
  cases hp : inp.pollResult with
  | none => rfl
  | some r =>
    obtain ⟨rsid, rcmd, rcid⟩ := r
    cases rcmd with
    | none => rfl
    | some cmd =>
      cases rcid with
      | none => rfl
      | some cid =>
        by_cases hne : cmd ≠ "" ∧ cid ≠ ""
        · simp only [if_pos hne, List.filterMap_append, List.filterMap_map]
          rw [filterMap_always_none ((execute_command cmd true inp.proc).2.streamed)
            (getPollSid ∘ Action.streamChunk cid) (fun a => rfl)]
          rfl
        · simp [hne]

theorem hb_cmdActs (inp : IterInput) : (iterCmdActs inp).any isHbAct = false := by
  unfold iterCmdActs
  cases hp : inp.pollResult with
  | none => rfl
  | some r =>
    obtain ⟨rsid, rcmd, rcid⟩ := r
    cases rcmd with
    | none => rfl
    | some cmd =>
      cases rcid with
      | none => rfl
      | some cid =>
        by_cases hne : cmd ≠ "" ∧ cid ≠ ""
        · simp only [if_pos hne, List.any_append]
          rw [any_map_comp, any_always_false ((execute_command cmd true inp.proc).2.streamed)
            (isHbAct ∘ Action.streamChunk cid) (fun a => rfl)]
          rfl
        · simp [hne]

theorem reports_cmdActs (c : String) (inp : IterInput) :
    (iterCmdActs inp).countP (isReportFor c) = if inputCmdId inp = some c then 1 else 0 := by
  unfold iterCmdActs inputCmdId
  cases hp : inp.pollResult with
  | none => rfl
  | some r =>
    obtain ⟨rsid, rcmd, rcid⟩ := r
    cases rcmd with
    | none => rfl
    | some cmd =>
      cases rcid with
      | none => rfl
      | some cid =>
        by_cases hne : cmd ≠ "" ∧ cid ≠ ""
        · simp only [if_pos hne, List.countP_append, List.countP_map]
          rw [countP_always_false ((execute_command cmd true inp.proc).2.streamed)
            (isReportFor c ∘ Action.streamChunk cid) (fun a => rfl)]
          by_cases hcc : cid = c
          · subst hcc
            simp [isReportFor, List.countP_cons]
          · simp [isReportFor, List.countP_cons, hcc,
              show ¬ (some cid = some c) by simpa using hcc]
        · simp [hne]

theorem iterSleeps_step (pi : Nat) (s : LoopState) (inp : IterInput) :
    iterSleeps (iterStep pi s inp).1 = [iterSleepLen pi s inp] := by
  rw [iterStep_eq]
  unfold iterSleeps
  simp only [List.filterMap_append, getSleep_cmdActs]
  split <;> simp [getSleep]

theorem pollSids_step (pi : Nat) (s : LoopState) (inp : IterInput) :
    pollSids (iterStep pi s inp).1 = [s.session_id] := by
  rw [iterStep_eq]
  unfold pollSids
  simp only [List.filterMap_append, getPollSid_cmdActs]
  split <;> simp [getPollSid]

theorem hb_step (pi : Nat) (s : LoopState) (inp : IterInput) :
    (iterStep pi s inp).1.any isHbAct
      = if inp.now - s.last_heartbeat > 60 then true else false := by
  rw [iterStep_eq]
  simp only [List.any_append, hb_cmdActs]
  split <;> simp [isHbAct]

theorem reports_step (c : String) (pi : Nat) (s : LoopState) (inp : IterInput) :
    (iterStep pi s inp).1.countP (isReportFor c)
      = if inputCmdId inp = some c then 1 else 0 := by
  rw [iterStep_eq]
  simp only [List.countP_append, reports_cmdActs]
  split <;> simp [isReportFor]

/-! ## C2: backoff schedule -/

theorem expectedBackoff_step (k : Nat) :
    (if k + 1 > 10 then min (expectedBackoff k * 2) 60 else expectedBackoff k)
      = expectedBackoff (k + 1) := by
  by_cases h1 : k + 1 ≤ 10
  · simp [expectedBackoff, h1, show k ≤ 10 by omega, show ¬ (k + 1 > 10) by omega]
  · by_cases h2 : k = 10
    · subst h2; decide
    · have hk : ¬ k ≤ 10 := by omega
      simp only [expectedBackoff, if_neg hk, if_neg (show ¬ (k + 1 ≤ 10) by omega),
        if_pos (show k + 1 > 10 by omega)]
      have hpow : 2 ^ (k + 1 - 10) = 2 ^ (k - 10) * 2 := by
        rw [← pow_succ]
        congr 1
        omega
      rw [hpow]
      generalize (2 : Nat) ^ (k - 10) = a
      omega

theorem backoff_fail_run (pi : Nat) :
    ∀ (inputs : List IterInput), (∀ i ∈ inputs, i.pollResult = none) →
    ∀ (k : Nat) (sid : Option String) (lh : Nat),
      ((runIters pi ⟨expectedBackoff k, k, sid, lh⟩ inputs).1.map iterSleeps)
        = (List.range inputs.length).map (fun i => [expectedBackoff (k + i + 1)]) := by
  intro inputs
  induction inputs with
  | nil => intro _ k sid lh; rfl
  | cons inp rest ih =>
    intro hfail k sid lh
    have hp : inp.pollResult = none := hfail inp (by simp)
    rw [runIters_cons, List.map_cons, iterSleeps_step]
    have hlen : iterSleepLen pi ⟨expectedBackoff k, k, sid, lh⟩ inp = expectedBackoff (k + 1) := by
      unfold iterSleepLen iterNewBackoff
      rw [hp]
      exact expectedBackoff_step k
    have hstate : (iterStep pi ⟨expectedBackoff k, k, sid, lh⟩ inp).2
        = ⟨expectedBackoff (k + 1), k + 1,  sid,
           if inp.now - lh > 60 then inp.now else lh⟩ := by
      rw [iterStep_eq]
      unfold iterNewBackoff iterNewErrs sidUpdate
      rw [hp]
      simp only []
      congr 1
      exact expectedBackoff_step k
    rw [hlen, hstate,
      ih (fun i hi => hfail i (List.mem_cons_of_mem _ hi)) (k + 1) sid
        (if inp.now - lh > 60 then inp.now else lh)]
    rw [List.length_cons, List.range_succ_eq_map, List.map_cons, List.map_map]
    congr 1
    refine List.map_congr_left (fun a _ => ?_)
    simp only [Function.comp]
    congr 2
    omega

/--
C2: under consecutive poll failures the slept delay after the `k`-th
failure is `expectedBackoff k` — 1 second for the first 10 failures, then
doubling per failure from the 11th on, capped at 60 seconds — and any poll
success resets `consecutive_errors` to 0 and `backoff` to 1.
-/
theorem backoff_schedule (pi fuel : Nat) (sid : Option String) (inputs : List IterInput)
    (hfail : ∀ i ∈ inputs, i.pollResult = none) :
    ((poll_loop pi sid fuel inputs).1.map iterSleeps)
      = (List.range (min fuel inputs.length)).map (fun i => [expectedBackoff (i + 1)]) ∧
    (∀ (s : LoopState) (inp : IterInput) (r : PollResp), inp.pollResult = some r →
      (iterStep pi s inp).2.backoff = 1 ∧ (iterStep pi s inp).2.consecutive_errors = 0) := by
  constructor
  · unfold poll_loop
    rw [poll_loop_iters_eq]
    have h0 : initState sid = ⟨expectedBackoff 0, 0, sid, 0⟩ := by
      unfold initState expectedBackoff
      norm_num
    rw [h0, backoff_fail_run pi (inputs.take fuel)
      (fun i hi => hfail i (List.mem_of_mem_take hi)) 0 sid 0]
    rw [List.length_take]
    refine List.map_congr_left (fun a _ => ?_)
    congr 2
    omega
  · intro s inp r hp
    rw [iterStep_eq]
    unfold iterNewBackoff iterNewErrs
    rw [hp]
    exact ⟨rfl, rfl⟩

/-- Witness for C2: eleven consecutive poll failures produce the delay
sequence 1,1,1,1,1,1,1,1,1,1,2 — doubling begins at the 11th failure. -/
theorem backoff_schedule_witness :
    ((poll_loop 3 none 11 (List.replicate 11 ⟨0, none, .launchRaised ""⟩)).1.map iterSleeps)
      = (List.range (min 11 (List.replicate 11
          (⟨0, none, .launchRaised ""⟩ : IterInput)).length)).map
            (fun i => [expectedBackoff (i + 1)]) ∧
    (List.range (min 11 (List.replicate 11
        (⟨0, none, .launchRaised ""⟩ : IterInput)).length)).map
          (fun i => [expectedBackoff (i + 1)])
      = [[1], [1], [1], [1], [1], [1], [1], [1], [1], [1], [2]] := by
  constructor
  · exact (backoff_schedule 3 11 none _ (by decide)).1
  · decide

/-! ## C5: shutdown, report ordering, at-most-once reporting -/

theorem reportsAux_append : ∀ (a b : List Action) (done : List String),
    reportsFollowDoneAux done (a ++ b)
      = (reportsFollowDoneAux done a).bind (fun d => reportsFollowDoneAux d b) := by
  intro a
  induction a with
  | nil => intro b done; rfl
  | cons x a ih =>
    intro b done
    cases x with
    | execDone c => simp [reportsFollowDoneAux, ih]
    | reportResult c ec out =>
      by_cases h : c ∈ done
      · simp [reportsFollowDoneAux, h, ih]
      · simp [reportsFollowDoneAux, h]
    | heartbeat t => simp [reportsFollowDoneAux, ih]
    | pollReq sid => simp [reportsFollowDoneAux, ih]
    | sleep d => simp [reportsFollowDoneAux, ih]
    | streamChunk c l => simp [reportsFollowDoneAux, ih]

theorem reportsAux_streams (cid : String) : ∀ (L : List String) (done : List String),
    reportsFollowDoneAux done (L.map (Action.streamChunk cid)) = some done := by
  intro L
  induction L with
  | nil => intro done; rfl
  | cons a L ih => intro done; simp [List.map_cons, reportsFollowDoneAux, ih]

/-- Within one iteration, the report (when present) comes after the
execution-completion marker of the same command. -/
theorem reportsAux_cmdActs (inp : IterInput) (done : List String) :
    reportsFollowDoneAux done (iterCmdActs inp)
      = some (match inputCmdId inp with
              | some cid => cid :: done
              | none => done) := by
  unfold iterCmdActs inputCmdId
  cases hp : inp.pollResult with
  | none => rfl
  | some r =>
    obtain ⟨rsid, rcmd, rcid⟩ := r
    cases rcmd with
    | none => rfl
    | some cmd =>
      cases rcid with
      | none => rfl
      | some cid =>
        by_cases hne : cmd ≠ "" ∧ cid ≠ ""
        · simp only [if_pos hne]
          rw [reportsAux_append, reportsAux_streams]
          simp [reportsFollowDoneAux]
        · simp [hne, reportsFollowDoneAux]

theorem ordered_step (pi : Nat) (s : LoopState) (inp : IterInput) (done : List String) :
    ∃ d', reportsFollowDoneAux done (iterStep pi s inp).1 = some d' := by
  rw [iterStep_eq]
  rw [reportsAux_append, reportsAux_append, reportsAux_append]
  have hhb : ∃ d1, reportsFollowDoneAux done
      (if inp.now - s.last_heartbeat > 60 then [Action.heartbeat inp.now] else []) = some d1 := by
    split
    · exact ⟨done, rfl⟩
    · exact ⟨done, rfl⟩
  obtain ⟨d1, h1⟩ := hhb
  rw [h1]
  show ∃ d', ((reportsFollowDoneAux d1 [Action.pollReq s.session_id]).bind _).bind _ = some d'
  rw [show reportsFollowDoneAux d1 [Action.pollReq s.session_id] = some d1 from rfl]
  show ∃ d', (reportsFollowDoneAux d1 (iterCmdActs inp)).bind _ = some d'
  rw [reportsAux_cmdActs]
  exact ⟨_, rfl⟩

theorem runIters_ordered (pi : Nat) :
    ∀ (inputs : List IterInput) (s : LoopState) (done : List String),
    ∃ d', reportsFollowDoneAux done ((runIters pi s inputs).1.flatten) = some d' := by
  intro inputs
  induction inputs with
  | nil => intro s done; exact ⟨done, rfl⟩
  | cons inp rest ih =>
    intro s done
    rw [runIters_cons, List.flatten_cons, reportsAux_append]
    obtain ⟨d1, h1⟩ := ordered_step pi s inp done
    rw [h1]
    obtain ⟨d2, h2⟩ := ih (iterStep pi s inp).2 d1
    exact ⟨d2, by simpa using h2⟩

theorem runIters_len (pi : Nat) : ∀ (inputs : List IterInput) (s : LoopState),
    (runIters pi s inputs).1.length = inputs.length := by
  intro inputs
  induction inputs with
  | nil => intro s; rfl
  | cons inp rest ih => intro s; rw [runIters_cons]; simp [ih]

theorem sidTrajectory_length : ∀ (l : List (Option PollResp)) (s : Option String),
    (sidTrajectory s l).length = l.length := by
  intro l
  induction l with
  | nil => intro s; rfl
  | cons a l ih => intro s; simp [sidTrajectory, ih]

theorem runIters_pollSids (pi : Nat) : ∀ (inputs : List IterInput) (s : LoopState),
    pollSids ((runIters pi s inputs).1.flatten)
      = sidTrajectory s.session_id (inputs.map (·.pollResult)) := by
  intro inputs
  induction inputs with
  | nil => intro s; rfl
  | cons inp rest ih =>
    intro s
    rw [runIters_cons, List.flatten_cons]
    unfold pollSids
    rw [List.filterMap_append]
    rw [show (iterStep pi s inp).1.filterMap getPollSid = [s.session_id] from
      pollSids_step pi s inp]
    have h2 := ih (iterStep pi s inp).2
    unfold pollSids at h2
    rw [h2, show (iterStep pi s inp).2.session_id = sidUpdate s.session_id inp.pollResult
      from by rw [iterStep_eq]]
    simp [sidTrajectory, List.map_cons]

theorem runIters_reports (pi : Nat) (c : String) :
    ∀ (inputs : List IterInput) (s : LoopState),
    ((runIters pi s inputs).1.flatten.countP (isReportFor c))
      = (inputs.filterMap inputCmdId).count c := by
  intro inputs
  induction inputs with
  | nil => intro s; rfl
  | cons inp rest ih =>
    intro s
    rw [runIters_cons, List.flatten_cons, List.countP_append, reports_step, ih]
    cases hci : inputCmdId inp with
    | none => simp [List.filterMap_cons, hci]
    | some cid =>
      simp only [List.filterMap_cons, hci]
      by_cases hcc : cid = c
      · subst hcc
        simp [List.count_cons, Nat.add_comm]
      · simp [List.count_cons, hcc, show ¬ (some cid = some c) by simpa using hcc]

/--
C5: with the `running` flag modelled as the iteration budget `fuel`
(cleared during iteration `fuel`, observed at the top of the next), the
loop runs exactly `min fuel inputs.length` complete iterations — the
iteration in progress finishes its command and its result report — and
issues exactly one poll per completed iteration, hence no new poll after
the flag is cleared; every result report in the trace is preceded by the
completion (or forced termination) of that command's execution; and when
the delivered command ids are distinct, no command is reported more than
once.
-/
theorem shutdown_and_report_discipline (pi fuel : Nat) (sid : Option String)
    (inputs : List IterInput)
    (hnodup : (inputs.filterMap inputCmdId).Nodup) :
    (poll_loop pi sid fuel inputs).1.length = min fuel inputs.length ∧
    (pollSids ((poll_loop pi sid fuel inputs).1.flatten)).length
      = min fuel inputs.length ∧
    reportsOrdered ((poll_loop pi sid fuel inputs).1.flatten) = true ∧
    (∀ c, ((poll_loop pi sid fuel inputs).1.flatten.countP (isReportFor c)) ≤ 1) := by
  unfold poll_loop
  rw [poll_loop_iters_eq]
  refine ⟨?_, ?_, ?_, ?_⟩
  · rw [runIters_len, List.length_take]
  · rw [runIters_pollSids, sidTrajectory_length]
    simp [List.length_take]
  · unfold reportsOrdered
    obtain ⟨d, hd⟩ := runIters_ordered pi (inputs.take fuel) (initState sid) []
    rw [hd]
    rfl
  · intro c
    rw [runIters_reports]
    calc ((inputs.take fuel).filterMap inputCmdId).count c
        ≤ (inputs.filterMap inputCmdId).count c :=
          ((List.take_sublist fuel inputs).filterMap inputCmdId).count_le c
      _ ≤ 1 := List.nodup_iff_count_le_one.1 hnodup c

/-- Witness for C5 at a one-command run. -/
theorem shutdown_and_report_discipline_witness :
    (poll_loop 3 none 1
        [⟨100, some ⟨some "s1", some "echo hi", some "c1"⟩,
          .launched ⟨["hi\n"], .exited 0, 0⟩⟩]).1.length
      = min 1 ([⟨100, some ⟨some "s1", some "echo hi", some "c1"⟩,
          .launched ⟨["hi\n"], .exited 0, 0⟩⟩] : List IterInput).length ∧
    (pollSids ((poll_loop 3 none 1
        [⟨100, some ⟨some "s1", some "echo hi", some "c1"⟩,
          .launched ⟨["hi\n"], .exited 0, 0⟩⟩]).1.flatten)).length
      = min 1 ([⟨100, some ⟨some "s1", some "echo hi", some "c1"⟩,
          .launched ⟨["hi\n"], .exited 0, 0⟩⟩] : List IterInput).length ∧
    reportsOrdered ((poll_loop 3 none 1
        [⟨100, some ⟨some "s1", some "echo hi", some "c1"⟩,
          .launched ⟨["hi\n"], .exited 0, 0⟩⟩]).1.flatten) = true ∧
    (∀ c, ((poll_loop 3 none 1
        [⟨100, some ⟨some "s1", some "echo hi", some "c1"⟩,
          .launched ⟨["hi\n"], .exited 0, 0⟩⟩]).1.flatten.countP (isReportFor c)) ≤ 1) :=
  shutdown_and_report_discipline 3 1 none _ (by decide)

/-! ## C7: session id persistence -/

theorem runIters_final_sid (pi : Nat) : ∀ (inputs : List IterInput) (s : LoopState),
    (runIters pi s inputs).2.session_id
      = sidFold s.session_id (inputs.map (·.pollResult)) := by
  intro inputs
  induction inputs with
  | nil => intro s; rfl
  | cons inp rest ih =>
    intro s
    rw [runIters_cons]
    show (runIters pi (iterStep pi s inp).2 rest).2.session_id = _
    rw [ih, show (iterStep pi s inp).2.session_id = sidUpdate s.session_id inp.pollResult
      from by rw [iterStep_eq]]
    rfl

/--
C7: every poll request carries the currently assigned session id — the
sequence of session ids carried by the polls of a run (including one
auto-restart of the loop within the same process) is `sidTrajectory`:
each poll carries the id as assigned by all earlier poll responses, the
restarted loop continues from the id reached by the first run (the global
is not reset), and an assigned id is never un-assigned by a later response.
-/
theorem session_id_persistence (pi : Nat) (sid : Option String)
    (fuel₁ fuel₂ : Nat) (inputs₁ inputs₂ : List IterInput) :
    pollSids ((poll_loop_restart pi sid fuel₁ inputs₁ fuel₂ inputs₂).1.flatten)
      = sidTrajectory sid ((inputs₁.take fuel₁).map (·.pollResult))
        ++ sidTrajectory (sidFold sid ((inputs₁.take fuel₁).map (·.pollResult)))
            ((inputs₂.take fuel₂).map (·.pollResult)) ∧
    (∀ (v : String) (pr : Option PollResp), sidUpdate (some v) pr ≠ none) := by
  constructor
  · show pollSids ((((poll_loop pi sid fuel₁ inputs₁).1
        ++ (poll_loop pi (poll_loop pi sid fuel₁ inputs₁).2.session_id fuel₂ inputs₂).1)).flatten)
      = _
    unfold poll_loop
    rw [poll_loop_iters_eq, poll_loop_iters_eq, List.flatten_append]
    unfold pollSids
    rw [List.filterMap_append]
    have h1 := runIters_pollSids pi (inputs₁.take fuel₁) (initState sid)
    have h2 := runIters_pollSids pi (inputs₂.take fuel₂)
      (initState (runIters pi (initState sid) (inputs₁.take fuel₁)).2.session_id)
    unfold pollSids at h1 h2
    rw [h1, h2, show (initState (runIters pi (initState sid)
        (inputs₁.take fuel₁)).2.session_id).session_id
      = (runIters pi (initState sid) (inputs₁.take fuel₁)).2.session_id from rfl]
    rw [runIters_final_sid]
    rfl
  · intro v pr
    cases pr with
    | none => simp [sidUpdate]
    | some r =>
      show (if pyTruthy r.session_id then r.session_id else some v) ≠ none
      by_cases h : pyTruthy r.session_id
      · rw [if_pos h]
        cases hs : r.session_id with
        | none => rw [hs] at h; simp [pyTruthy] at h
        | some s => simp
      · rw [if_neg h]
        simp

/-! ## C8: heartbeat cadence -/

theorem runIters_hb (pi : Nat) : ∀ (inputs : List IterInput) (s : LoopState),
    ((runIters pi s inputs).1.map (fun acts => acts.any isHbAct))
      = hbTrajectory s.last_heartbeat (inputs.map (·.now)) := by
  intro inputs
  induction inputs with
  | nil => intro s; rfl
  | cons inp rest ih =>
    intro s
    rw [runIters_cons, List.map_cons, hb_step, ih,
      show (iterStep pi s inp).2.last_heartbeat
        = if inp.now - s.last_heartbeat > 60 then inp.now else s.last_heartbeat
      from by rw [iterStep_eq]]
    by_cases h : inp.now - s.last_heartbeat > 60
    · simp [List.map_cons, hbTrajectory, h]
    · simp [List.map_cons, hbTrajectory, h]

/-- Consecutive heartbeat emissions are always more than 60 seconds apart
(anchored at the initial last-emission time). -/
theorem hbTimes_gap : ∀ (ts : List Nat) (last : Nat),
    (last :: ts).Pairwise (· ≤ ·) →
    List.Chain (fun a b => 60 < b - a) last (hbTimes last ts) := by
  intro ts
  induction ts with
  | nil => intro last _; exact List.Chain.nil
  | cons t ts ih =>
    intro last hpw
    have hts : (t :: ts).Pairwise (· ≤ ·) := (List.pairwise_cons.mp hpw).2
    unfold hbTimes
    by_cases h : t - last > 60
    · rw [if_pos h]
      exact List.Chain.cons h (ih t hts)
    · rw [if_neg h]
      refine ih last (hpw.sublist ?_)
      exact List.Sublist.cons₂ last (List.sublist_cons_self t ts)

/--
C8 (amended): the heartbeat is emitted exactly on those iterations where
strictly more than 60 seconds have elapsed since the last (successful or
attempted) emission — with the last-emission time starting at 0 — and two
consecutive emissions are always more than 60 seconds apart (in
particular never twice within less than 60 seconds).  The code's check is
`now - last_heartbeat > 60`, strict, so an iteration at exactly 60 elapsed
seconds does not emit (see the counterexample).
-/
theorem heartbeat_cadence (pi fuel : Nat) (sid : Option String)
    (inputs : List IterInput)
    (hmono : ((0 : Nat) :: (inputs.take fuel).map (·.now)).Pairwise (· ≤ ·)) :
    ((poll_loop pi sid fuel inputs).1.map (fun acts => acts.any isHbAct))
      = hbTrajectory 0 ((inputs.take fuel).map (·.now)) ∧
    List.Chain (fun a b => 60 < b - a) 0 (hbTimes 0 ((inputs.take fuel).map (·.now))) := by
  constructor
  · unfold poll_loop
    rw [poll_loop_iters_eq, runIters_hb]
    rfl
  · exact hbTimes_gap _ 0 hmono

/-- Witness for C8 (amended) on a concrete run: emissions at 100 and 260
(gap 160 > 60), none at 160 (gap 60, not strictly greater). -/
theorem heartbeat_cadence_witness :
    ((poll_loop 3 none 3
        [⟨100, none, .launchRaised ""⟩, ⟨160, none, .launchRaised ""⟩,
         ⟨261, none, .launchRaised ""⟩]).1.map (fun acts => acts.any isHbAct))
      = hbTrajectory 0
          (([⟨100, none, .launchRaised ""⟩, ⟨160, none, .launchRaised ""⟩,
             ⟨261, none, .launchRaised ""⟩] : List IterInput).take 3 |>.map (·.now)) ∧
    List.Chain (fun a b => 60 < b - a) 0
      (hbTimes 0 (([⟨100, none, .launchRaised ""⟩, ⟨160, none, .launchRaised ""⟩,
         ⟨261, none, .launchRaised ""⟩] : List IterInput).take 3 |>.map (·.now))) :=
  heartbeat_cadence 3 3 none _ (by decide)

/-- Counterexample to C8 as stated: at iteration 2 exactly 60 seconds have
elapsed since the last emission (at time 100), which the claim's "at least
60 seconds" requires to fire — but the loop does not emit a heartbeat
there. -/
theorem heartbeat_exact_60_gap_no_fire :
    ((poll_loop 3 none 2
        [⟨100, none, .launchRaised ""⟩, ⟨160, none, .launchRaised ""⟩]).1.map
          (fun acts => acts.any isHbAct)) = [true, false] ∧
    160 - 100 ≥ 60 := by
  constructor
  · decide
  · decide

/-! ## C9: startup bridge-key validation -/

/--
C9: in the `start` action, when the bridge key is absent (or falsy) or
does not begin with `"pb_"`, `handle_bridge` exits the process with status
1 (`Sum.inl 1`, a non-zero exit) before `poll_loop` is entered — the
outcome carries no loop trace, hence no network call was attempted.
-/
theorem bridge_key_gate (args : Args) (cfg : Config) (pi fuel : Nat)
    (inputs : List IterInput)
    (hact : args.bridge_action = none ∨ args.bridge_action = some "start")
    (hbad : ∀ k, pyOr args.key cfg.bridge_key = some k →
      k = "" ∨ k.startsWith "pb_" = false) :
    handle_bridge args cfg pi fuel inputs = Sum.inl 1 := by
  unfold handle_bridge
  rw [if_pos hact]
  cases hk : pyOr args.key cfg.bridge_key with
  | none => rfl
  | some k =>
    rcases hbad k hk with h | h
    · simp [h]
    · by_cases he : k = ""
      · simp [he]
      · simp [he, h]

/-- Witness for C9: no `--key` argument and the configuration default
`bridge_key = ""` exit the process with status 1. -/
theorem bridge_key_gate_witness :
    handle_bridge ⟨some "start", none⟩ ⟨some ""⟩ 3 5 [] = Sum.inl 1 :=
  bridge_key_gate ⟨some "start", none⟩ ⟨some ""⟩ 3 5 [] (Or.inr rfl)
    (by
      intro k hk
      have h : ("" : String) = k := by simpa [pyOr, pyTruthy] using hk
      exact Or.inl h.symm)

end PriorityLiving
